import Mathlib

/-!
Verification of the anomaly-record canonicalization and fusion pipeline
(`notify/render_email.py`).

The pipeline is shallowly embedded:

* A cell value (`Val`) is a number, a string, or null (pandas `NaN`); machine
  floats only appear in this program as small sentinel integers, so numbers
  are modelled by `Int`.
* A table row is an association list from column name to value; a table is a
  list of column names plus a list of rows.  All pandas operations used by the
  program (`to_numeric`, `.astype(str)`, `.str.strip()`, `.str.lower()`,
  column selection, `dropna`, `sort_values`, `groupby(...).tail(1)`) are
  row-wise and are embedded as the corresponding row-wise Lean functions.
  `sort_values("time_utc")` (default quicksort) guarantees only an ascending
  reordering of the frame — its arrangement of rows sharing an identical
  timestamp is unspecified; it is modelled here by one fixed representative
  ascending permutation (an insertion sort by timestamp), followed by
  `groupby("city").tail(1)` as keeping each city's last occurrence.  The
  properties proved about the selector depend only on membership and
  non-emptiness of the sorted frame, not on the order chosen among rows
  with equal timestamps.
* Timestamps: `pd.to_datetime` parsing is kept abstract (a parameter
  `Val → Option ParsedTime`); the zone arithmetic of `coerce_time` is
  embedded concretely, with a time zone modelled as its fixed UTC offset in
  seconds (adequate for the zones the program configures, e.g.
  `Asia/Ho_Chi_Minh` = +07:00 with no daylight saving) and an instant as
  seconds on the UTC timeline.  `strftime("%Y-%m-%d %H:%M")` rendering is
  modelled at its information content: the wall-clock minute count.
-/

/-- Python `str.lower()` on the characters of a string (ASCII-adequate for the
alias tables of the program). -/
def lowerS (s : String) : String := ⟨s.data.map Char.toLower⟩

/-- Python `str.strip()`: drop whitespace from both ends. -/
def trimS (s : String) : String :=
  ⟨((s.data.dropWhile Char.isWhitespace).reverse.dropWhile Char.isWhitespace).reverse⟩

/-- Whether `p` occurs at the head of `s` (character lists). -/
def hasPref : List Char → List Char → Bool
  | [], _ => true
  | _ :: _, [] => false
  | a :: as, b :: bs => a == b && hasPref as bs

/-- Python `p in s` on strings: `p` occurs as a contiguous substring of `s`. -/
def hasSub (p : List Char) : List Char → Bool
  | [] => hasPref p []
  | c :: rest => hasPref p (c :: rest) || hasSub p rest

/-- String-level substring test, `needle in hay` in Python. -/
def subStr (needle hay : String) : Bool := hasSub needle.data hay.data

/-- Numeric value of a list of decimal digits. -/
def digitsVal (ds : List Char) : Int :=
  ds.foldl (fun a c => a * 10 + ((c.toNat : Int) - ('0'.toNat : Int))) 0

/-- Embedding of `pd.to_numeric(..., errors="coerce")` on the strings this
program feeds it: an optionally signed decimal integer, surrounding
whitespace ignored; anything else coerces to NaN (`none`). -/
def parseIntS (s : String) : Option Int :=
  match (trimS s).data with
  | [] => none
  | '-' :: ds => if ds ≠ [] && ds.all Char.isDigit then some (-(digitsVal ds)) else none
  | ds => if ds.all Char.isDigit then some (digitsVal ds) else none

/-- A pandas cell: a number, a string, or NaN/None. -/
inductive Val where
  | num (n : Int)
  | str (s : String)
  | null
deriving DecidableEq

/-- Embedding of `series.astype(str)` on one cell (`str(NaN) = "nan"`). -/
def strOfVal : Val → String
  | .num n => toString n
  | .str s => s
  | .null => "nan"

/-- Embedding of `pd.to_numeric(..., errors="coerce")` on one cell. -/
def toNumeric : Val → Option Int
  | .num n => some n
  | .str s => parseIntS s
  | .null => none

/-- The truthy string tokens of `parse_flag_generic`. -/
def flagTokens : List String :=
  ["-1", "true", "yes", "y", "t", "anomaly", "outlier", "abnormal", "alert"]

/-- Embedding of `parse_flag_generic` on one cell: numeric values are
anomalous iff they equal the sentinel `-1`; non-numeric values iff their
stripped, lower-cased string form is one of the truthy tokens. -/
def parseFlagGeneric (v : Val) : Bool :=
  match toNumeric v with
  | some n => n == -1
  | none => flagTokens.contains (lowerS (trimS (strOfVal v)))

def aliasCity : List String := ["city", "thanh_pho", "tinh", "province", "location"]

def aliasTime : List String := ["time", "timestamp", "datetime", "date"]

def aliasAqi : List String := ["aqi", "AQI", "aqi_value"]

def aliasWind : List String := ["wind", "wind_speed", "windspeed", "gio", "gió"]

def aliasFlag : List String := ["flag", "is_anomaly", "anomaly", "is_outlier", "label"]

def aliasMethod : List String := ["method", "algo", "algorithm", "detector", "source"]

/-- Lookup in the dict `cols = {c.lower(): c for c in df.columns}`: the value
stored under a lower-cased key is the *last* column that lower-cases to it
(later comprehension entries overwrite earlier ones). -/
def ciLookup (cols : List String) (key : String) : Option String :=
  cols.reverse.find? (fun c => lowerS c == key)

/-- Embedding of `pick_col`: for each alias in priority order, try an exact
column-name match, then the lower-cased dict; if no alias matched either way,
scan columns in order for one that contains any alias case-insensitively. -/
def pickCol (cols : List String) (names : List String) : Option String :=
  match names.findSome? (fun n =>
      if cols.contains n then some n else ciLookup cols (lowerS n)) with
  | some c => some c
  | none => cols.find? (fun c => names.any (fun n => subStr (lowerS n) (lowerS c)))

/-- Modelled from the claim's words (for comparison with `pickCol`): the
resolver runs three *whole* passes — first exact matching of every alias in
priority order, then case-insensitive exact matching, then case-insensitive
substring matching. -/
def pickColClaimed (cols : List String) (names : List String) : Option String :=
  match names.find? (fun n => cols.contains n) with
  | some c => some c
  | none =>
    match names.findSome? (fun n => ciLookup cols (lowerS n)) with
    | some c => some c
    | none => cols.find? (fun c => names.any (fun n => subStr (lowerS n) (lowerS c)))

/-- The per-alias pass of the amended description of `pick_col`: each alias in
priority order is tried with its exact match and then its case-insensitive
dict match, both for one alias before moving to the next alias. -/
def aliasPass (cols : List String) : List String → Option String
  | [] => none
  | n :: rest =>
    if cols.contains n then some n
    else
      match ciLookup cols (lowerS n) with
      | some c => some c
      | none => aliasPass cols rest

/-- The amended description of `pick_col`: the interleaved per-alias pass
(`aliasPass`), and only if no alias matched either way, a single
case-insensitive substring pass over the columns in order. -/
def pickColAmended (cols : List String) (names : List String) : Option String :=
  match aliasPass cols names with
  | some c => some c
  | none => cols.find? (fun c => names.any (fun n => subStr (lowerS n) (lowerS c)))

/-- A table row: an association list from column name to cell value. -/
def Row : Type := List (String × Val)

/-- A table: its column names in order, and its rows. -/
structure Table where
  cols : List String
  rows : List Row

/-- Value of a row at a column (`df[col]` for one row; the program only reads
columns it has checked are present, missing columns read as NaN). -/
def cell (row : Row) (c : String) : Val :=
  match List.find? (fun p => p.1 == c) row with
  | some p => p.2
  | none => .null

/-- The per-detector flag columns, in the order the program checks them:
`Z_FLAG_COLS` (two Z-score columns) then `IF_FLAG_COL` (IsolationForest). -/
def detectorChecks : List (String × String) :=
  [("Z-score AQI", "zscore_flag_aqi"),
   ("Z-score Wind", "zscore_flag_wind"),
   ("IsolationForest", "anomaly")]

/-- Whether one detector fires on a row: its flag column is present in the
table and `parse_flag_generic` accepts the row's value there. -/
def detectorFires (cols : List String) (row : Row) (chk : String × String) : Bool :=
  cols.contains chk.2 && parseFlagGeneric (cell row chk.2)

/-- Embedding of `derive_detector_flags` on one row: the disjunction of the
present detector flags, and the labels of the firing detectors in check
order (the program's comma-joined string, as its list of components). -/
def deriveDetectorFlags (cols : List String) (row : Row) : Bool × List String :=
  (detectorChecks.any (detectorFires cols row),
   (detectorChecks.filter (detectorFires cols row)).map (fun chk => chk.1))

/-- The generic-flag contribution of `to_canonical` (lines 182–186): if a
flag column resolves, parse it generically, else no contribution. -/
def genericFlag (cols : List String) (row : Row) : Bool :=
  match pickCol cols aliasFlag with
  | some cf => parseFlagGeneric (cell row cf)
  | none => false

/-- The fused per-row verdict `out["flag"]`: detector flags or-ed with the
generic flag column. -/
def rowFlag (cols : List String) (row : Row) : Bool :=
  (deriveDetectorFlags cols row).1 || genericFlag cols row

/-- The stripped free-text method value of a row
(`df[c_meth].astype(str).str.strip()` when a method column resolves, `""`
otherwise). -/
def baseMethod (cols : List String) (row : Row) : String :=
  match pickCol cols aliasMethod with
  | some cm => trimS (strOfVal (cell row cm))
  | none => ""

/-- The fused per-row method list `out["method"]` (lines 188–200): the
free-text value, if non-empty, prepended to the firing detector labels; the
program's comma-joined string is represented as its component list, with
`[]` standing for the `NaN` that `replace("", np.nan)` produces. -/
def rowMethods (cols : List String) (row : Row) : List String :=
  let det := (deriveDetectorFlags cols row).2
  if baseMethod cols row == "" then det else baseMethod cols row :: det

/-- Result of `pd.to_datetime` on one parseable cell: either zone-aware
(a wall-clock second count together with the explicit UTC offset it carries)
or zone-naive (a bare wall-clock second count). -/
inductive ParsedTime where
  | aware (wall offset : Int)
  | naive (wall : Int)
deriving DecidableEq

/-- Embedding of `coerce_time` on one parsed value, with the configured
`INPUT_TZ` given as an optional fixed UTC offset in seconds: zone-aware
values keep their instant (`tz_convert("UTC")`); zone-naive values are
localized to `INPUT_TZ` when it is set and to UTC otherwise. The result is
the instant in seconds on the UTC timeline. -/
def coerceTime (inputTz : Option Int) : ParsedTime → Int
  | .aware wall offset => wall - offset
  | .naive wall =>
    match inputTz with
    | some o => wall - o
    | none => wall - 0

/-- Embedding of `fmt_local`: convert a UTC instant to the display zone
(`LOCAL_TZ`, as a fixed UTC offset in seconds) and render at minute
precision; the rendered `"%Y-%m-%d %H:%M"` string is modelled by its
information content, the wall-clock minute count. -/
def fmtLocal (localTz : Int) (instant : Int) : Int :=
  (instant + localTz).fdiv 60

/-- The minute count of a wall-clock second count (what a minute-precision
rendering of that wall-clock time determines). -/
def wallMinutes (wall : Int) : Int := wall.fdiv 60

/-- The canonical record: one row of the frame `to_canonical` returns. -/
structure CRec where
  city : String
  time : Int
  aqi : Option Int
  wind : Option Int
  flag : Bool
  methods : List String
  source : String
deriving DecidableEq

/-- First maximal run of characters from `[0-9.]` in a string — the capture
of the regex `([\d.]+)` that the wind column is passed through. -/
def firstNumRun (cs : List Char) : Option (List Char) :=
  match cs with
  | [] => none
  | c :: rest =>
    if c.isDigit || c == '.' then
      some (c :: rest.takeWhile (fun d => d.isDigit || d == '.'))
    else firstNumRun rest

/-- Embedding of the wind extraction
`df[c_wind].astype(str).str.extract(r"([\d.]+)")` followed by `to_numeric`. -/
def extractWind (v : Val) : Option Int :=
  match firstNumRun (strOfVal v).data with
  | some run => parseIntS ⟨run⟩
  | none => none

/-- Embedding of `to_canonical` restricted to one row, with the resolved
city/time columns given: builds the canonical record, or drops the row when
its timestamp does not parse (`dropna(subset=["time_utc"])`).  `pt` stands
for `pd.to_datetime` on one cell (abstract), `itz` for `INPUT_TZ`. -/
def canonRow (itz : Option Int) (pt : Val → Option ParsedTime)
    (cols : List String) (cc ct : String) (row : Row) : Option CRec :=
  match pt (cell row ct) with
  | none => none
  | some p =>
    some
      { city := strOfVal (cell row cc)
        time := coerceTime itz p
        aqi :=
          match pickCol cols aliasAqi with
          | some ca => toNumeric (cell row ca)
          | none => none
        wind :=
          match pickCol cols aliasWind with
          | some cw => extractWind (cell row cw)
          | none => none
        flag := rowFlag cols row
        methods := rowMethods cols row
        source := strOfVal (cell row "__source") }

/-- Embedding of `to_canonical`: resolve the canonical columns with
`pick_col`; a table without a city or time column yields `none` (the
function returns `None` and the table is skipped); otherwise one canonical
record per row whose timestamp parses, in input row order. -/
def toCanonical (itz : Option Int) (pt : Val → Option ParsedTime)
    (t : Table) : Option (List CRec) :=
  match pickCol t.cols aliasCity, pickCol t.cols aliasTime with
  | some cc, some ct => some (t.rows.filterMap (canonRow itz pt t.cols cc ct))
  | _, _ => none

/-- Ascending insertion by `time_utc` (helper of `sortByTime`). -/
def insertT (r : CRec) : List CRec → List CRec
  | [] => [r]
  | y :: l => if r.time ≤ y.time then r :: y :: l else y :: insertT r l

/-- Embedding of `big.sort_values("time_utc")`.  The program's default
quicksort guarantees an ascending rearrangement of the frame but leaves the
relative order of rows with identical `time_utc` unspecified; this
insertion sort is one fixed representative of the ascending permutations,
and nothing proved below about the selector depends on which tied
arrangement is chosen (only on membership and non-emptiness, both invariant
across all of them). -/
def sortByTime : List CRec → List CRec
  | [] => []
  | r :: l => insertT r (sortByTime l)

/-- Embedding of `groupby("city", as_index=False).tail(1)`: keep, in frame
order, each city's last row. -/
def keepLastOcc : List CRec → List CRec
  | [] => []
  | r :: rest =>
    if rest.any (fun s => s.city == r.city) then keepLastOcc rest
    else r :: keepLastOcc rest

/-- The selector of `main`: keep the anomalous rows
(`big[big["flag"] == True]`), sort by `time_utc`, keep the latest row per
city. -/
def selectLatest (rs : List CRec) : List CRec :=
  keepLastOcc (sortByTime (rs.filter (fun r => r.flag)))

/-- The report phase of `main` on the canonical universe: `none` models the
early `return` with no artifact written ("No positive flags."), `some`
models the rows rendered into the written report. -/
def runReport (rs : List CRec) : Option (List CRec) :=
  if rs.filter (fun r => r.flag) = [] then none
  else some (selectLatest rs)

/-- Scenario A's row: the tabular row of the claim, with the provenance
column `__source` that the loader appends before `to_canonical` runs. -/
def rowA : Row :=
  [("timestamp", Val.str "2025-01-01T10:00:00+07:00"),
   ("city", Val.str "Hanoi"),
   ("anomaly", Val.num (-1)),
   ("__source", Val.str "result_anomaly/hanoi.csv")]

/-- Scenario A's table, as `main` hands it to `to_canonical`. -/
def tblA : Table :=
  { cols := ["timestamp", "city", "anomaly", "__source"]
    rows := [rowA] }

/-- `pd.to_datetime` on Scenario A's timestamp: zone-aware, wall clock
2025-01-01 10:00:00 at offset +07:00 (instant 2025-01-01T03:00:00Z,
epoch second 1735700400). -/
def ptA : Val → Option ParsedTime := fun v =>
  if v == Val.str "2025-01-01T10:00:00+07:00" then
    some (ParsedTime.aware 1735725600 25200)
  else none

/-- A hierarchical (JSON) table whose one row fires only the generic flag
column and carries an explicitly blank free-text method column. -/
def tblBlankMethod : Table :=
  { cols := ["city", "time", "flag", "method", "__source"]
    rows := [[("city", Val.str "Hanoi"),
              ("time", Val.str "2025-01-01 10:00"),
              ("flag", Val.num (-1)),
              ("method", Val.str ""),
              ("__source", Val.str "result_anomaly/hanoi.json")]] }

/-- `pd.to_datetime` on the naive timestamp `"2025-01-01 10:00"` (wall-clock
epoch-style second count 1735725600). -/
def ptNaive : Val → Option ParsedTime := fun v =>
  if v == Val.str "2025-01-01 10:00" then some (ParsedTime.naive 1735725600)
  else none

/-- A table whose one row names `IsolationForest` in its free-text method
column while the IsolationForest flag column also fires. -/
def tblDupMethod : Table :=
  { cols := ["city", "time", "method", "anomaly", "__source"]
    rows := [[("city", Val.str "Hanoi"),
              ("time", Val.str "2025-01-01 10:00"),
              ("method", Val.str "IsolationForest"),
              ("anomaly", Val.num (-1)),
              ("__source", Val.str "result_anomaly/hanoi.csv")]] }

/-- The columns of a table carrying only measurements (plus provenance). -/
def colsMeasures : List String := ["city", "time", "aqi", "wind", "__source"]

/-- A row with ordinary `aqi` and `wind` measurement values and no flag
signal of any encoding. -/
def rowMeasures : Row :=
  [("city", Val.str "Hanoi"), ("time", Val.str "2025-01-01 10:00"),
   ("aqi", Val.num 500), ("wind", Val.num 99),
   ("__source", Val.str "result_anomaly/hanoi.csv")]

/-- The columns of a table in which both a Z-score column and the
IsolationForest column are present. -/
def colsTwoDet : List String :=
  ["city", "time", "zscore_flag_aqi", "anomaly", "__source"]

/-- A row flagged by two distinct detectors. -/
def rowTwoDet : Row :=
  [("city", Val.str "Hanoi"), ("time", Val.str "2025-01-01 10:00"),
   ("zscore_flag_aqi", Val.num (-1)), ("anomaly", Val.num (-1)),
   ("__source", Val.str "result_anomaly/hanoi.csv")]

/-- A table with one parseable-timestamp row and one unparseable one. -/
def tblMixedTime : Table :=
  { cols := ["city", "time", "__source"]
    rows := [[("city", Val.str "Hanoi"), ("time", Val.str "2025-01-01 10:00"),
              ("__source", Val.str "result_anomaly/hanoi.csv")],
             [("city", Val.str "Hue"), ("time", Val.str "not-a-date"),
              ("__source", Val.str "result_anomaly/hue.csv")]] }

/-- The canonical record of `tblMixedTime`'s first row. -/
def recMixedTime : CRec :=
  { city := "Hanoi", time := 1735725600, aqi := none, wind := none,
    flag := false, methods := ["result_anomaly/hanoi.csv"],
    source := "result_anomaly/hanoi.csv" }

/-- A flagged canonical record. -/
def recFlagged : CRec :=
  { city := "Hanoi", time := 1735700400, aqi := none, wind := none,
    flag := true, methods := ["IsolationForest"],
    source := "result_anomaly/hanoi.csv" }

/-! ## Theorems -/

/-- The interleaved per-alias loop of `pick_col`, written with `findSome?`,
agrees with its explicit recursion `aliasPass`. -/
theorem findSome?_eq_aliasPass (cols : List String) :
    ∀ names : List String,
      (names.findSome? (fun n =>
        if cols.contains n then some n else ciLookup cols (lowerS n))) =
      aliasPass cols names := by
  intro names
  induction names with
  | nil => rfl
  | cons n rest ih =>
    simp only [List.findSome?_cons]
    by_cases h : n ∈ cols
    · simp [aliasPass, h]
    · simp only [aliasPass]
      cases hci : ciLookup cols (lowerS n) with
      | none => simpa [h, hci] using ih
      | some c => simp [h, hci]

/-- C1 (counterexample): on Scenario A's row, canonicalization does *not*
produce a record whose methods list is exactly `["IsolationForest"]`: the
loader-injected `__source` column resolves as the free-text method column
(substring match on the alias `"source"`), so the source path is carried
into the methods as well. -/
theorem c1_counterexample :
    (toCanonical none ptA tblA).map (List.map CRec.methods) =
      some [["result_anomaly/hanoi.csv", "IsolationForest"]] ∧
    (some [["result_anomaly/hanoi.csv", "IsolationForest"]] : Option (List (List String))) ≠
      some [["IsolationForest"]] := by
  exact ⟨by decide, by decide⟩

/-- C1 (amended): Scenario A's row canonicalizes to exactly one record with
`city = "Hanoi"` and `isAnomalous = true`, whose methods list is the source
identifier followed by `"IsolationForest"` — the injected `__source` column
resolves as the method column and is prepended to the fired detector. -/
theorem c1_amended :
    toCanonical none ptA tblA =
      some [{ city := "Hanoi", time := 1735700400, aqi := none, wind := none,
              flag := true,
              methods := ["result_anomaly/hanoi.csv", "IsolationForest"],
              source := "result_anomaly/hanoi.csv" }] := by
  decide

/-- C4 (counterexample): the whole-pass reading of the matching order and
the implemented resolver disagree on the columns `["Aqi", "aqi_value"]` with
the `aqi` alias list: the whole-pass reading finds the exact match
`"aqi_value"` (third alias) first, while `pick_col` returns `"Aqi"` because
the first alias's case-insensitive match runs before the third alias's
exact match. -/
theorem c4_counterexample :
    pickColClaimed ["Aqi", "aqi_value"] aliasAqi = some "aqi_value" ∧
    pickCol ["Aqi", "aqi_value"] aliasAqi = some "Aqi" ∧
    pickColClaimed ["Aqi", "aqi_value"] aliasAqi ≠
      pickCol ["Aqi", "aqi_value"] aliasAqi := by
  exact ⟨by decide, by decide, by decide⟩

/-- C4 (amended): for every table and field, `pick_col` tries each alias in
declared priority order with that alias's exact match and case-insensitive
exact match interleaved (both attempted before the next alias), and only
when no alias matches either way does the single case-insensitive substring
pass over the present columns run; the first match under this ordering is
returned, with no scoring across strategies. -/
theorem c4_amended (cols names : List String) :
    pickCol cols names = pickColAmended cols names := by
  unfold pickCol pickColAmended
  rw [findSome?_eq_aliasPass]

/-- C3: on every row on which no recognized flag signal fires — every
detector sentinel/token condition is false and the resolved generic flag
column (if any) is not truthy — the fused verdict is not anomalous and the
fusion engine contributes no method; in particular the values of `aqi` or
`wind` columns, which the fusion never reads, cannot make a row anomalous. -/
theorem c3_no_false_positives (cols : List String) (row : Row)
    (hdet : ∀ chk ∈ detectorChecks, detectorFires cols row chk = false)
    (hgen : genericFlag cols row = false) :
    rowFlag cols row = false ∧ (deriveDetectorFlags cols row).2 = [] := by
  have hany : detectorChecks.any (detectorFires cols row) = false := by
    rw [List.any_eq_false]
    intro x hx
    simp [hdet x hx]
  have hfil : detectorChecks.filter (detectorFires cols row) = [] := by
    rw [List.filter_eq_nil_iff]
    intro a ha
    simp [hdet a ha]
  constructor
  · simp [rowFlag, deriveDetectorFlags, hany, hgen]
  · simp [deriveDetectorFlags, hfil]

/-- C3 (witness): a row whose only numeric content is `aqi = 500` and
`wind = 99` is not anomalous and contributes no method. -/
theorem c3_no_false_positives_witness :
    rowFlag colsMeasures rowMeasures = false ∧
    (deriveDetectorFlags colsMeasures rowMeasures).2 = [] :=
  c3_no_false_positives colsMeasures rowMeasures (by decide) (by decide)

/-- C2 (counterexample): a row whose generic flag column fires (`flag = -1`)
while its explicit free-text method column is blank and no detector column
is present canonicalizes to a record with `isAnomalous = true` and an empty
methods list, violating the invariant as stated. -/
theorem c2_counterexample :
    (toCanonical none ptNaive tblBlankMethod).map
        (List.map (fun r => (r.flag, r.methods))) =
      some [(true, ([] : List String))] := by
  decide

/-- The detector-derived methods list is empty exactly when no detector
flag fired. -/
theorem derive_methods_nil_iff (cols : List String) (row : Row) :
    (deriveDetectorFlags cols row).2 = [] ↔
      (deriveDetectorFlags cols row).1 = false := by
  simp [deriveDetectorFlags, List.map_eq_nil_iff, List.filter_eq_nil_iff,
    List.any_eq_false]

/-- C2 (amended): for every canonical record, the methods list is empty iff
no detector-specific flag fired and the resolved free-text method value is
blank; hence `isAnomalous = true` implies a non-empty methods list except in
the single case where the anomaly comes only from the generic flag column
and the resolved method column holds a blank string (when no method-like
column exists, the injected `__source` column resolves as the method column
and keeps the list non-empty). -/
theorem c2_amended (cols : List String) (row : Row)
    (h : rowFlag cols row = true) :
    (rowMethods cols row = [] ↔
      ((deriveDetectorFlags cols row).1 = false ∧ baseMethod cols row = "")) := by
  unfold rowMethods
  by_cases hb : baseMethod cols row = ""
  · simp [hb, derive_methods_nil_iff]
  · simp [hb]

/-- C2 (amended, witness): on Scenario A's row the fused flag is true, a
detector fired, and accordingly the methods list is non-empty. -/
theorem c2_amended_witness :
    rowFlag tblA.cols rowA = true ∧
    (rowMethods tblA.cols rowA = [] ↔
      ((deriveDetectorFlags tblA.cols rowA).1 = false ∧
        baseMethod tblA.cols rowA = "")) :=
  ⟨by decide, c2_amended tblA.cols rowA (by decide)⟩

/-- C6 (counterexample): a row whose free-text method column already names
`IsolationForest` while the IsolationForest flag column fires produces a
record whose methods list contains `IsolationForest` twice — the free-text
value is concatenated verbatim, with no deduplicating union. -/
theorem c6_counterexample :
    (toCanonical none ptNaive tblDupMethod).map (List.map CRec.methods) =
      some [["IsolationForest", "IsolationForest"]] ∧
    List.count "IsolationForest" ["IsolationForest", "IsolationForest"] = 2 := by
  exact ⟨by decide, by decide⟩

/-- C6 (amended): within the detector-derived methods of the fusion engine,
every firing detector's name appears exactly once — in particular a row
flagged by two distinct detectors carries both names exactly once; the
free-text method column, however, is prepended verbatim with no
deduplication against the detector names. -/
theorem c6_amended (cols : List String) (row : Row) (l1 l2 : String)
    (hne : l1 ≠ l2)
    (h1 : l1 ∈ (deriveDetectorFlags cols row).2)
    (h2 : l2 ∈ (deriveDetectorFlags cols row).2) :
    List.count l1 (deriveDetectorFlags cols row).2 = 1 ∧
    List.count l2 (deriveDetectorFlags cols row).2 = 1 := by
  have hsub : List.Sublist
      ((detectorChecks.filter (detectorFires cols row)).map (fun chk => chk.1))
      (detectorChecks.map (fun chk => chk.1)) :=
    (List.filter_sublist _).map _
  have hnd : ((detectorChecks.filter (detectorFires cols row)).map
      (fun chk => chk.1)).Nodup := by
    refine hsub.nodup ?_
    decide
  exact ⟨List.count_eq_one_of_mem hnd h1, List.count_eq_one_of_mem hnd h2⟩

/-- C6 (amended, witness): a row fired by both `Z-score AQI` and
`IsolationForest` carries each name exactly once in the detector-derived
methods. -/
theorem c6_amended_witness :
    List.count "Z-score AQI" (deriveDetectorFlags colsTwoDet rowTwoDet).2 = 1 ∧
    List.count "IsolationForest" (deriveDetectorFlags colsTwoDet rowTwoDet).2 = 1 :=
  c6_amended colsTwoDet rowTwoDet "Z-score AQI" "IsolationForest"
    (by decide) (by decide) (by decide)

/-- C5: for every zone-naive wall-clock value that parses, when the assumed
input zone and the display zone are the same fixed offset, normalizing with
`coerce_time` and rendering with `fmt_local` reproduces the original
wall-clock value at minute precision (no accidental shift). -/
theorem c5_roundtrip (zoneOffset wall : Int) :
    fmtLocal zoneOffset (coerceTime (some zoneOffset) (ParsedTime.naive wall)) =
      wallMinutes wall := by
  unfold fmtLocal coerceTime wallMinutes
  have h : wall - zoneOffset + zoneOffset = wall := by omega
  rw [h]

/-- C10: for every zone-naive wall-clock value that parses, when `INPUT_TZ`
is unset `coerce_time` interprets it as UTC wall-clock time — the canonical
instant equals the naive value itself, and differs from the interpretation
under any non-UTC fixed zone offset. -/
theorem c10_naive_utc (wall : Int) :
    coerceTime none (ParsedTime.naive wall) = wall ∧
    ∀ o : Int, o ≠ 0 →
      coerceTime none (ParsedTime.naive wall) ≠
        coerceTime (some o) (ParsedTime.naive wall) := by
  refine ⟨by simp [coerceTime], fun o ho => ?_⟩
  simp only [coerceTime]
  omega

/-- C10 (witness): the naive value 1735725600 with `INPUT_TZ` unset maps to
the instant 1735725600, which differs from the +07:00 interpretation. -/
theorem c10_naive_utc_witness :
    coerceTime none (ParsedTime.naive 1735725600) = 1735725600 ∧
    coerceTime none (ParsedTime.naive 1735725600) ≠
      coerceTime (some 25200) (ParsedTime.naive 1735725600) :=
  ⟨(c10_naive_utc 1735725600).1, (c10_naive_utc 1735725600).2 25200 (by decide)⟩

/-- Counting lemma: a `filterMap` keeps as many elements as the `filter` by
the domain of its function. -/
theorem length_filterMap_eq_length_filter {α β : Type} (f : α → Option β)
    (p : α → Bool) (hfp : ∀ x, (f x).isSome = p x) :
    ∀ l : List α, (l.filterMap f).length = (l.filter p).length := by
  intro l
  induction l with
  | nil => rfl
  | cons x xs ih =>
    rw [List.filterMap_cons, List.filter_cons]
    cases hx : f x with
    | none =>
      have hp : p x = false := by rw [← hfp x, hx]; rfl
      simp [hp, ih]
    | some b =>
      have hp : p x = true := by rw [← hfp x, hx]; rfl
      simp [hp, ih]

/-- A row survives canonicalization exactly when its timestamp parses. -/
theorem canonRow_isSome (itz : Option Int) (pt : Val → Option ParsedTime)
    (cols : List String) (cc ct : String) (row : Row) :
    (canonRow itz pt cols cc ct row).isSome = (pt (cell row ct)).isSome := by
  unfold canonRow
  cases pt (cell row ct) <;> rfl

/-- C9: for every table whose time column resolves to `ct`, canonicalization
emits exactly one record per row whose raw timestamp parses — unparseable
rows are dropped while the remaining rows are still processed — and every
emitted instant comes from a successfully parsed row value (never a default
such as "now" or the epoch). -/
theorem c9_drop_unparseable (itz : Option Int) (pt : Val → Option ParsedTime)
    (t : Table) (ct : String) (recs : List CRec)
    (hct : pickCol t.cols aliasTime = some ct)
    (h : toCanonical itz pt t = some recs) :
    recs.length =
      (t.rows.filter (fun row => (pt (cell row ct)).isSome)).length ∧
    ∀ r ∈ recs, ∃ row ∈ t.rows, ∃ p, pt (cell row ct) = some p ∧
      r.time = coerceTime itz p := by
  cases hcc : pickCol t.cols aliasCity with
  | none =>
    rw [toCanonical, hcc] at h
    cases h
  | some cc =>
    rw [toCanonical, hcc, hct] at h
    injection h with h
    subst h
    constructor
    · exact length_filterMap_eq_length_filter _ _
        (canonRow_isSome itz pt t.cols cc ct) t.rows
    · intro r hr
      rcases List.mem_filterMap.mp hr with ⟨row, hrow, hcr⟩
      refine ⟨row, hrow, ?_⟩
      unfold canonRow at hcr
      cases hp : pt (cell row ct) with
      | none => rw [hp] at hcr; cases hcr
      | some p =>
        rw [hp] at hcr
        injection hcr with hcr
        exact ⟨p, rfl, by rw [← hcr]⟩

/-- C9 (witness): of the two rows of `tblMixedTime` only the parseable one
survives, and its instant comes from its parsed timestamp. -/
theorem c9_drop_unparseable_witness :
    ([recMixedTime] : List CRec).length =
      (tblMixedTime.rows.filter
        (fun row => (ptNaive (cell row "time")).isSome)).length ∧
    ∀ r ∈ ([recMixedTime] : List CRec), ∃ row ∈ tblMixedTime.rows,
      ∃ p, ptNaive (cell row "time") = some p ∧ r.time = coerceTime none p :=
  c9_drop_unparseable none ptNaive tblMixedTime "time" [recMixedTime]
    (by decide) (by decide)

/-- Membership after a stable insert. -/
theorem mem_insertT (a r : CRec) :
    ∀ l : List CRec, a ∈ insertT r l → a = r ∨ a ∈ l := by
  intro l
  induction l with
  | nil =>
    intro h
    simp [insertT] at h
    exact Or.inl h
  | cons y l ih =>
    intro h
    unfold insertT at h
    split at h
    · rcases List.mem_cons.mp h with h1 | h2
      · exact Or.inl h1
      · exact Or.inr h2
    · rcases List.mem_cons.mp h with h1 | h2
      · exact Or.inr (List.mem_cons.mpr (Or.inl h1))
      · rcases ih h2 with ha | hb
        · exact Or.inl ha
        · exact Or.inr (List.mem_cons.mpr (Or.inr hb))

/-- Membership after the stable sort. -/
theorem mem_sortByTime (a : CRec) :
    ∀ l : List CRec, a ∈ sortByTime l → a ∈ l := by
  intro l
  induction l with
  | nil => intro h; simpa [sortByTime] using h
  | cons r l ih =>
    intro h
    unfold sortByTime at h
    rcases mem_insertT a r _ h with h1 | h2
    · simp [h1]
    · simp [ih h2]

/-- Membership after keeping each city's last row. -/
theorem mem_keepLastOcc (a : CRec) :
    ∀ l : List CRec, a ∈ keepLastOcc l → a ∈ l := by
  intro l
  induction l with
  | nil => intro h; simpa [keepLastOcc] using h
  | cons r l ih =>
    intro h
    unfold keepLastOcc at h
    split at h
    · simp [ih h]
    · rcases List.mem_cons.mp h with h1 | h2
      · simp [h1]
      · simp [ih h2]

/-- A stable insert never yields the empty list. -/
theorem insertT_ne_nil (r : CRec) : ∀ l : List CRec, insertT r l ≠ [] := by
  intro l
  cases l with
  | nil => simp [insertT]
  | cons y l =>
    unfold insertT
    split <;> simp

/-- Sorting a non-empty list yields a non-empty list. -/
theorem sortByTime_ne_nil : ∀ l : List CRec, l ≠ [] → sortByTime l ≠ [] := by
  intro l h
  cases l with
  | nil => exact absurd rfl h
  | cons r l => exact insertT_ne_nil r (sortByTime l)

/-- Keeping last occurrences of a non-empty list yields a non-empty list. -/
theorem keepLastOcc_ne_nil : ∀ l : List CRec, l ≠ [] → keepLastOcc l ≠ [] := by
  intro l
  induction l with
  | nil => intro h; exact absurd rfl h
  | cons r l ih =>
    intro _
    unfold keepLastOcc
    split
    · rename_i hany
      refine ih ?_
      intro hnil
      rw [hnil] at hany
      simp at hany
    · simp

/-- C8: the report artifact is produced iff the universe holds at least one
anomalous record; when it is produced it is non-empty and every selected
record is anomalous; an anomaly-free universe ends the run normally with no
artifact (`none`) rather than an error. -/
theorem c8_report_iff (rs : List CRec) :
    ((runReport rs).isSome = true ↔ ∃ r ∈ rs, r.flag = true) ∧
    (∀ out, runReport rs = some out →
      out ≠ [] ∧ ∀ r ∈ out, r.flag = true) := by
  constructor
  · unfold runReport
    by_cases hf : rs.filter (fun r => r.flag) = []
    · rw [if_pos hf]
      simp only [Option.isSome_none, Bool.false_eq_true, false_iff]
      rintro ⟨r, hr, hfl⟩
      have hm : r ∈ rs.filter (fun r => r.flag) :=
        List.mem_filter.mpr ⟨hr, hfl⟩
      rw [hf] at hm
      cases hm
    · rw [if_neg hf]
      simp only [Option.isSome_some, true_iff]
      cases hcase : rs.filter (fun r => r.flag) with
      | nil => exact absurd hcase hf
      | cons x xs =>
        have hx : x ∈ rs.filter (fun r => r.flag) := by rw [hcase]; simp
        have hx' := List.mem_filter.mp hx
        exact ⟨x, hx'.1, hx'.2⟩
  · intro out hout
    unfold runReport at hout
    by_cases hf : rs.filter (fun r => r.flag) = []
    · rw [if_pos hf] at hout
      cases hout
    · rw [if_neg hf] at hout
      injection hout with hout
      constructor
      · rw [← hout]
        exact keepLastOcc_ne_nil _ (sortByTime_ne_nil _ hf)
      · intro r hr
        rw [← hout] at hr
        have h1 := mem_keepLastOcc r _ hr
        have h2 := mem_sortByTime r _ h1
        exact (List.mem_filter.mp h2).2

/-- C8 (witness): on the one-record flagged universe the report is written. -/
theorem c8_report_iff_witness :
    (runReport [recFlagged]).isSome = true ↔
      ∃ r ∈ ([recFlagged] : List CRec), r.flag = true :=
  (c8_report_iff [recFlagged]).1
